import Mathlib

/-!
Verification of the conduit repository core: the event store
(lib/events/store.ts) and the router / middleware pipeline
(lib/router/index.ts, lib/router/errors.ts, lib/router/response.ts).

The TypeScript is shallowly embedded: async functions whose awaited
results we reason about become pure Lean functions, promise rejection and
thrown errors become `Except`, and the nondeterministic collaborators
(clock, id generator, durable writer, listener handlers) become explicit
parameters. Observable side effects that the claims talk about (which
listener handlers were invoked, which middleware ran) are returned as
explicit traces.
-/

namespace Conduit

/-! ### Event model, from lib/events/types.ts

`BaseEvent` is `{id, timestamp, type, data}`; the payload is opaque to the
store, so we model it as a string. -/

structure BaseEvent where
  id : String
  timestamp : Nat
  type : String
  data : String
deriving Repr, DecidableEq

/-- `EventListener` from lib/events/types.ts: `{subscribesTo, handle}`.
`handle` returns a promise; we model its settled outcome, `.ok` for
fulfilled and `.error` for rejected (an `async` handler that throws
produces a rejected promise). -/
structure EventListener where
  subscribesTo : List String
  handle : BaseEvent → Except String Unit

/-- `EventWriter` contract from lib/events/types.ts: `write(event)` returns
a promise; `.error` models rejection of the durable write. -/
structure EventWriter where
  write : BaseEvent → Except String Unit

/-- `EventStore` from lib/events/store.ts: a writer injected via the
constructor and the listener list. -/
structure EventStore where
  writer : EventWriter
  listeners : List EventListener

/-- `EventStore.subscribe`: `this.listeners.push(listener)`. -/
def EventStore.subscribe (s : EventStore) (l : EventListener) : EventStore :=
  { s with listeners := s.listeners ++ [l] }

/-- The completion step of `EventStore.emit`:
`{...event, id: event.id || this.generateEventId(), timestamp: event.timestamp || Date.now()}`.
JS truthiness: the empty string and `0` are falsy, so they are replaced.
`generateEventId()` (wall clock + random suffix) and `Date.now()` are
nondeterministic; their results are the parameters `gen` and `now`. -/
def completeEvent (gen : String) (now : Nat) (e : BaseEvent) : BaseEvent :=
  { e with
    id := if e.id = "" then gen else e.id,
    timestamp := if e.timestamp = 0 then now else e.timestamp }

/-- `EventStore.emit(event)` from lib/events/store.ts.

Returns the settled outcome of the `emit` promise together with the
invocation trace of the listener fan-out: one entry `(i, outcome)` for
every listener (at position `i` in the listener list) whose `handle` was
invoked, carrying the outcome of that `handle` call.

Control flow of the source: `await this.writer.write(completeEvent)` - if
that rejects, `emit` rejects and the fan-out below is never reached (empty
trace). Otherwise the listeners are filtered by
`listener.subscribesTo.includes(event.type)` and mapped to
`listener.handle(completeEvent).catch(err => console.error(...))`; the
`.catch` turns every rejection into a fulfilled promise (the error is only
logged), and `await Promise.allSettled(promises)` then always fulfills, so
`emit` resolves. -/
def EventStore.emit (s : EventStore) (gen : String) (now : Nat) (e : BaseEvent) :
    Except String Unit × List (Nat × Except String Unit) :=
  let ce := completeEvent gen now e
  match s.writer.write ce with
  | .error err => (.error err, [])
  | .ok _ =>
    let selected := s.listeners.enum.filter (fun q => q.2.subscribesTo.contains e.type)
    let trace := selected.map (fun q => (q.1, q.2.handle ce))
    (.ok (), trace)

/-! ### List helper lemmas for the listener fan-out -/

theorem fst_bounds_of_mem_enumFrom {α : Type} :
    ∀ (l : List α) (n : Nat) (q : Nat × α),
      q ∈ List.enumFrom n l → n ≤ q.1 ∧ q.1 < n + l.length := by
  intro l
  induction l with
  | nil => intro n q hq; simp [List.enumFrom] at hq
  | cons a as ih =>
    intro n q hq
    simp only [List.enumFrom, List.mem_cons] at hq
    rcases hq with h | h
    · subst h; simp
    · have := ih (n + 1) q h
      constructor <;> [omega; (simp only [List.length_cons]; omega)]

/-- Counting hits at the index of a distinguished element: in
`enumFrom n (pre ++ L :: post)`, filtered by a predicate on the element,
the index `n + pre.length` appears exactly once when `g L` holds and never
otherwise. -/
theorem countP_enumFrom_filter_at {α : Type} (g : α → Bool) :
    ∀ (pre : List α) (n : Nat) (L : α) (post : List α),
      (((List.enumFrom n (pre ++ L :: post)).filter (fun q => g q.2)).countP
          (fun q => q.1 == n + pre.length))
        = if g L then 1 else 0 := by
  intro pre
  induction pre with
  | nil =>
    intro n L post
    simp only [List.nil_append, List.enumFrom, List.length_nil, Nat.add_zero]
    have hrest : ((List.enumFrom (n + 1) post).filter (fun q => g q.2)).countP
        (fun q => q.1 == n) = 0 := by
      rw [List.countP_eq_zero]
      intro q hq
      have hmem := List.mem_of_mem_filter hq
      have := (fst_bounds_of_mem_enumFrom post (n + 1) q hmem).1
      simp only [beq_iff_eq]
      omega
    by_cases hg : g L = true
    · simp [List.filter_cons, hg, List.countP_cons, hrest]
    · simp only [Bool.not_eq_true] at hg
      simp [List.filter_cons, hg, hrest]
  | cons a pre ih =>
    intro n L post
    have hne : ((n : Nat) == n + (pre.length + 1)) = false := by
      simp only [beq_eq_false_iff_ne]
      omega
    have ih1 : (((List.enumFrom (n + 1) (pre ++ L :: post)).filter
          (fun q => g q.2)).countP (fun q => q.1 == n + (pre.length + 1)))
        = if g L then 1 else 0 := by
      have h := ih (n + 1) L post
      have heq : (n + 1) + pre.length = n + (pre.length + 1) := by omega
      rw [heq] at h
      exact h
    by_cases hga : g a = true
    · simp [List.enumFrom, List.filter_cons, hga, List.countP_cons, hne, ih1]
    · simp only [Bool.not_eq_true] at hga
      simp [List.enumFrom, List.filter_cons, hga, ih1]

/-- C2: if the durable write of the (completed) event rejects, `emit`
rejects with that failure and no listener is invoked: the invocation trace
is empty. lib/events/store.ts lines 45-66. -/
theorem emit_rejects_when_write_rejects_and_skips_listeners
    (s : EventStore) (gen : String) (now : Nat) (e : BaseEvent) (msg : String)
    (hw : s.writer.write (completeEvent gen now e) = .error msg) :
    s.emit gen now e = (.error msg, []) := by
  unfold EventStore.emit
  simp [hw]

/-- Witness for C2 at a concrete store whose writer rejects. -/
theorem emit_rejects_when_write_rejects_and_skips_listeners_witness :
    EventStore.emit
        ⟨⟨fun _ => .error "disk full"⟩, [⟨["user.registered"], fun _ => .ok ()⟩]⟩
        "evt_1" 5 ⟨"", 0, "user.registered", "payload"⟩
      = (.error "disk full", []) :=
  emit_rejects_when_write_rejects_and_skips_listeners _ "evt_1" 5 _ "disk full" rfl

/-- C3: when the durable write succeeds, one listener whose `handle`
rejects does not prevent the others: `emit` still resolves, and every
subscribed listener (the failing one included) has its `handle` invocation,
with its own outcome, in the fan-out trace. lib/events/store.ts lines
56-66: each mapped promise is `handle(ce).catch(log)`, so rejections are
swallowed and `Promise.allSettled` fulfills. -/
theorem emit_isolates_listener_failure
    (w : EventWriter) (ls : List EventListener) (gen : String) (now : Nat)
    (e : BaseEvent) (msg : String)
    (hw : w.write (completeEvent gen now e) = .ok ())
    (j : Nat) (F : EventListener)
    (hj : (j, F) ∈ ls.enum)
    (hsub : F.subscribesTo.contains e.type = true)
    (hfail : F.handle (completeEvent gen now e) = .error msg) :
    (EventStore.emit ⟨w, ls⟩ gen now e).1 = .ok () ∧
      ∀ i L, (i, L) ∈ ls.enum → L.subscribesTo.contains e.type = true →
        (i, L.handle (completeEvent gen now e)) ∈ (EventStore.emit ⟨w, ls⟩ gen now e).2 := by
  constructor
  · unfold EventStore.emit
    simp [hw]
  · intro i L hmem hLsub
    unfold EventStore.emit
    simp only [hw, List.mem_map, List.mem_filter]
    exact ⟨(i, L), ⟨hmem, hLsub⟩, rfl⟩

/-- Witness for C3: two subscribed listeners, the first one failing; the
second is still invoked and `emit` resolves. -/
theorem emit_isolates_listener_failure_witness :
    (EventStore.emit
        ⟨⟨fun _ => .ok ()⟩,
         [⟨["t"], fun _ => .error "listener boom"⟩, ⟨["t"], fun _ => .ok ()⟩]⟩
        "evt_1" 5 ⟨"", 0, "t", "payload"⟩).1 = .ok () ∧
      ((1 : Nat), (Except.ok () : Except String Unit)) ∈
        (EventStore.emit
          ⟨⟨fun _ => .ok ()⟩,
           [⟨["t"], fun _ => .error "listener boom"⟩, ⟨["t"], fun _ => .ok ()⟩]⟩
          "evt_1" 5 ⟨"", 0, "t", "payload"⟩).2 := by
  have h := emit_isolates_listener_failure
    ⟨fun _ => .ok ()⟩
    [⟨["t"], fun _ => .error "listener boom"⟩, ⟨["t"], fun _ => .ok ()⟩]
    "evt_1" 5 ⟨"", 0, "t", "payload"⟩ "listener boom" rfl
    0 ⟨["t"], fun _ => .error "listener boom"⟩ (List.Mem.head _) rfl rfl
  exact ⟨h.1, h.2 1 ⟨["t"], fun _ => .ok ()⟩ (List.Mem.tail _ (List.Mem.head _)) rfl⟩

/-- C4: with a successful durable write, one `emit` call invokes the
listener at position `pre.length` exactly once when it subscribes to the
emitted type, and never otherwise. The trace counts its invocations.
lib/events/store.ts lines 58-65 and subscribe at lines 32-34. -/
theorem emit_invokes_listener_exactly_once_iff_subscribed
    (w : EventWriter) (pre post : List EventListener) (L : EventListener)
    (gen : String) (now : Nat) (e : BaseEvent)
    (hw : w.write (completeEvent gen now e) = .ok ()) :
    ((EventStore.emit ⟨w, pre ++ L :: post⟩ gen now e).2.countP
        (fun q => q.1 == pre.length))
      = if L.subscribesTo.contains e.type then 1 else 0 := by
  unfold EventStore.emit
  simp only [hw]
  rw [List.countP_map]
  have := countP_enumFrom_filter_at (fun l => l.subscribesTo.contains e.type)
    pre 0 L post
  simpa [List.enum, Function.comp] using this

/-- Witness for C4: two listeners; the one at position 1 subscribes to the
emitted type and is invoked exactly once. -/
theorem emit_invokes_listener_exactly_once_iff_subscribed_witness :
    ((EventStore.emit
        ⟨⟨fun _ => .ok ()⟩,
         [⟨["other"], fun _ => .ok ()⟩, ⟨["t"], fun _ => .ok ()⟩]⟩
        "evt_1" 5 ⟨"", 0, "t", "payload"⟩).2.countP (fun q => q.1 == 1))
      = if (["t"] : List String).contains "t" then 1 else 0 := by
  have h := emit_invokes_listener_exactly_once_iff_subscribed
    ⟨fun _ => .ok ()⟩ [⟨["other"], fun _ => .ok ()⟩] []
    ⟨["t"], fun _ => .ok ()⟩ "evt_1" 5 ⟨"", 0, "t", "payload"⟩ rfl
  simpa using h

/-! ### JSON values and HTTP responses

A `Response` body is either `null` or the `JSON.stringify` of a structured
value; we keep the structured value. `JSON.stringify` drops object fields
whose value is `undefined`, so optional fields are included only when
present. -/

inductive Json where
| null
| str (s : String)
| num (n : Nat)
| arr (xs : List Json)
| obj (fields : List (String × Json))
deriving Repr

/-- Web-platform `Response`: status, headers, body. Headers are modeled as
an association list in insertion order; a JS object spread `{...a, ...b}`
is modeled by appending, with reads taking the last binding, so later
entries override earlier ones as in JS. -/
structure HttpResponse where
  status : Nat
  headers : List (String × String)
  body : Option Json
deriving Repr

/-- Last-binding read of a JS-object-as-association-list. -/
def objGet (hs : List (String × String)) (k : String) : Option String :=
  hs.foldl (fun acc q => if q.1 = k then some q.2 else acc) none

namespace response

/-- `json(data, {status, headers})` from lib/router/response.ts. -/
def json (data : Json) (status : Nat := 200)
    (headers : List (String × String) := []) : HttpResponse :=
  { status := status,
    headers := ("Content-Type", "application/json") :: headers,
    body := some data }

/-- `error(message, {status, code, details})` from lib/router/response.ts:
a JSON body `{error: {message, code, details}}`; `code` and `details` are
dropped by `JSON.stringify` when absent. -/
def error (message : String) (status : Nat := 500) (code : Option String := none)
    (details : Option Json := none) : HttpResponse :=
  json
    (Json.obj [("error", Json.obj
      ([("message", Json.str message)]
        ++ (match code with | some c => [("code", Json.str c)] | none => [])
        ++ (match details with | some d => [("details", d)] | none => [])))])
    status

/-- `notFound(message)` from lib/router/response.ts (unnamed part 010). -/
def notFound (message : String := "Not found") : HttpResponse :=
  error message 404 (some "NOT_FOUND")

end response

/-! ### Error classes, from lib/router/errors.ts

Thrown values are modeled by `JsError`: a plain `Error`, or an `HttpError`
with its subclass-specific extra data. The subclass smart constructors
below mirror the TypeScript constructors. Stack traces (attached to
responses only in development mode) are elided. -/

structure HttpErrorData where
  message : String
  statusCode : Nat
  headers : List (String × String)
  code : Option String
deriving Repr

inductive JsError where
| plain (message : String)
| base (d : HttpErrorData)
| badRequestE (d : HttpErrorData) (details : Option Json)
| validationE (d : HttpErrorData) (errors : List (String × List String))
| tooManyE (d : HttpErrorData) (retryAfter : Option Nat)
| redirectE (d : HttpErrorData)

/-- `new HttpError(message, statusCode, headers, code)`. -/
def HttpError (message : String) (statusCode : Nat)
    (headers : List (String × String) := []) (code : Option String := none) : JsError :=
  .base ⟨message, statusCode, headers, code⟩

/-- `new BadRequestError(message, details, headers)`: 400, BAD_REQUEST. -/
def BadRequestError (message : String) (details : Option Json := none)
    (headers : List (String × String) := []) : JsError :=
  .badRequestE ⟨message, 400, headers, some "BAD_REQUEST"⟩ details

/-- `new UnauthorizedError(message, headers)`: 401, UNAUTHORIZED. -/
def UnauthorizedError (message : String := "Unauthorized")
    (headers : List (String × String) := []) : JsError :=
  .base ⟨message, 401, headers, some "UNAUTHORIZED"⟩

/-- `new ForbiddenError(message, headers)`: 403, FORBIDDEN. -/
def ForbiddenError (message : String := "Forbidden")
    (headers : List (String × String) := []) : JsError :=
  .base ⟨message, 403, headers, some "FORBIDDEN"⟩

/-- `new NotFoundError(message, headers)`: 404, NOT_FOUND. -/
def NotFoundError (message : String := "Not found")
    (headers : List (String × String) := []) : JsError :=
  .base ⟨message, 404, headers, some "NOT_FOUND"⟩

/-- `new ConflictError(message, headers)`: 409, CONFLICT. -/
def ConflictError (message : String)
    (headers : List (String × String) := []) : JsError :=
  .base ⟨message, 409, headers, some "CONFLICT"⟩

/-- `new ValidationError(message, errors, headers)`: 422, VALIDATION_ERROR. -/
def ValidationError (message : String) (errors : List (String × List String))
    (headers : List (String × String) := []) : JsError :=
  .validationE ⟨message, 422, headers, some "VALIDATION_ERROR"⟩ errors

/-- `new TooManyRequestsError(message, retryAfter, headers)`: 429; when
`retryAfter` is given, a Retry-After header is appended. -/
def TooManyRequestsError (message : String := "Too many requests")
    (retryAfter : Option Nat := none)
    (headers : List (String × String) := []) : JsError :=
  .tooManyE
    ⟨message, 429,
      (match retryAfter with
       | some r => headers ++ [("Retry-After", toString r)]
       | none => headers),
      some "TOO_MANY_REQUESTS"⟩
    retryAfter

/-- `new InternalServerError(message, headers)`: 500, INTERNAL_SERVER_ERROR. -/
def InternalServerError (message : String := "Internal server error")
    (headers : List (String × String) := []) : JsError :=
  .base ⟨message, 500, headers, some "INTERNAL_SERVER_ERROR"⟩

/-- `new RedirectError(location, {status, headers})`: message "Redirect",
status defaulting to 302, and `{...headers, Location: location}` merged
into the headers (the `Location` binding comes last, so it wins). -/
def RedirectError (location : String) (status : Nat := 302)
    (headers : List (String × String) := []) : JsError :=
  .redirectE ⟨"Redirect", status, headers ++ [("Location", location)], none⟩

/-- `error.message` of the thrown value. -/
def JsError.message : JsError → String
  | .plain m => m
  | .base d => d.message
  | .badRequestE d _ => d.message
  | .validationE d _ => d.message
  | .tooManyE d _ => d.message
  | .redirectE d => d.message

/-- `errorToResponse(error, development)` from lib/router/errors.ts lines
175-237: a `RedirectError` becomes an empty-body response with the status
code and headers of the error; any other `HttpError` becomes a JSON body
`{error: {message, code, errors?, details?, retryAfter?}}` with its status
code and its headers merged after Content-Type; a plain error becomes a
500 INTERNAL_SERVER_ERROR body whose message is hidden outside development
mode. Development-mode stack traces are elided. -/
def errorToResponse (e : JsError) (development : Bool := false) : HttpResponse :=
  match e with
  | .redirectE d =>
    { status := d.statusCode, headers := d.headers, body := none }
  | .plain m =>
    { status := 500,
      headers := [("Content-Type", "application/json")],
      body := some (Json.obj [("error", Json.obj
        [("message", Json.str (if development then m else "An error occurred")),
         ("code", Json.str "INTERNAL_SERVER_ERROR")])]) }
  | .base d =>
    { status := d.statusCode,
      headers := ("Content-Type", "application/json") :: d.headers,
      body := some (Json.obj [("error", Json.obj
        ([("message", Json.str d.message)]
          ++ (match d.code with | some c => [("code", Json.str c)] | none => [])))]) }
  | .badRequestE d details =>
    { status := d.statusCode,
      headers := ("Content-Type", "application/json") :: d.headers,
      body := some (Json.obj [("error", Json.obj
        ([("message", Json.str d.message)]
          ++ (match d.code with | some c => [("code", Json.str c)] | none => [])
          ++ (match details with | some dd => [("details", dd)] | none => [])))]) }
  | .validationE d errors =>
    { status := d.statusCode,
      headers := ("Content-Type", "application/json") :: d.headers,
      body := some (Json.obj [("error", Json.obj
        ([("message", Json.str d.message)]
          ++ (match d.code with | some c => [("code", Json.str c)] | none => [])
          ++ [("errors", Json.obj (errors.map
                (fun q => (q.1, Json.arr (q.2.map Json.str)))))]))]) }
  | .tooManyE d retryAfter =>
    { status := d.statusCode,
      headers := ("Content-Type", "application/json") :: d.headers,
      body := some (Json.obj [("error", Json.obj
        ([("message", Json.str d.message)]
          ++ (match d.code with | some c => [("code", Json.str c)] | none => [])
          ++ (match retryAfter with
              | some r => [("retryAfter", Json.num r)] | none => [])))]) }

/-! ### Requests, context and middleware -/

/-- `HttpMethod` from lib/router/types.ts. -/
inductive HttpMethod where
| GET | POST | PUT | PATCH | DELETE | HEAD | OPTIONS
deriving Repr, DecidableEq

/-- The method string interpolated into the 404 message. -/
def HttpMethod.name : HttpMethod → String
  | .GET => "GET" | .POST => "POST" | .PUT => "PUT" | .PATCH => "PATCH"
  | .DELETE => "DELETE" | .HEAD => "HEAD" | .OPTIONS => "OPTIONS"

/-- An inbound request, reduced to what `Router.handle` reads from it:
`request.method` and `new URL(request.url).pathname` / `searchParams`. -/
structure HttpRequest where
  method : HttpMethod
  pathname : String
  query : List (String × String)
deriving Repr

/-- `RequestContext` from lib/router/types.ts: `{request, params, query,
url}`. JS objects are open, and middleware attach extension fields to the
context (session, layout, flash data); the `bag` field models those
extension fields, here as the observable record of context mutations.
`url` carries no information beyond the request fields we keep. -/
structure RequestContext where
  request : HttpRequest
  params : List (String × String)
  query : List (String × String)
  bag : List (String × String)

/-- `RouteHandler` from lib/router/types.ts:
`(ctx) => Response | Promise<Response>` which may also throw and may
mutate the context object it received. -/
def RouteHandler : Type := RequestContext → Except JsError (HttpResponse × RequestContext)

/-- The behaviors of a `Middleware` `(ctx, next) => ...`: return a
response without calling `next` (`halt`), throw (`throwErr`), mutate the
context and continue (`act`), or `await next()` and post-process its
result with access to the (possibly further mutated) context
(`callNext`; the pass-through middleware is
`callNext (fun c r => .ok (r, c))`). First-order so that execution of the
chain terminates; every middleware appearing in the repository calls
`next` at most once, which this covers. -/
inductive Mw where
| halt (r : HttpResponse)
| throwErr (e : JsError)
| act (f : RequestContext → RequestContext) (k : Mw)
| callNext (post : RequestContext → HttpResponse → Except JsError (HttpResponse × RequestContext))

/-- Run one middleware with the current context and a `next` continuation,
as `currentMiddleware(ctx, next)` does. -/
def Mw.denote : Mw → RequestContext →
    (RequestContext → Except JsError (HttpResponse × RequestContext)) →
    Except JsError (HttpResponse × RequestContext)
  | .halt r, ctx, _ => .ok (r, ctx)
  | .throwErr e, _, _ => .error e
  | .act f k, ctx, next => k.denote (f ctx) next
  | .callNext post, ctx, next => do
    let (r, ctx2) ← next ctx
    post ctx2 r

/-- The `next` closure of `Router.executeMiddlewareChain` (lib/router/
index.ts lines 285-311): the mutable `index` cursor is the argument `i`;
when every middleware has run, the terminal handler is called; otherwise
the middleware at the cursor runs with the incremented cursor in its
`next`. The `if (!currentMiddleware)` re-check in the source is unreachable
when `i < middleware.length` (no holes in the array) and is dropped. -/
def chainNext (mws : List Mw) (handler : RouteHandler) (i : Nat)
    (ctx : RequestContext) : Except JsError (HttpResponse × RequestContext) :=
  if h : i < mws.length then
    (mws.get ⟨i, h⟩).denote ctx (fun c => chainNext mws handler (i + 1) c)
  else
    handler ctx
termination_by mws.length - i

/-- `Router.executeMiddlewareChain(ctx, middleware, handler)`. -/
def executeMiddlewareChain (mws : List Mw) (handler : RouteHandler)
    (ctx : RequestContext) : Except JsError (HttpResponse × RequestContext) :=
  chainNext mws handler 0 ctx

/-! ### Pattern compilation, from Router.compilePattern

The source escapes regex metacharacters in the pattern and replaces each
`:(\w+)` with the capturing group `([^/]+)`, then anchors with `^...$`.
We model the compiled regex by the token list it denotes: each literal
character of the pattern (escaping makes every non-param character
literal) and one parameter token per `:name`. -/

inductive PathTok where
| lit (c : Char)
| param (name : String)
deriving Repr, DecidableEq

/-- JS regex `\w`: ASCII letters, digits and underscore. -/
def isWordChar (c : Char) : Bool :=
  c.isAlpha || c.isDigit || c = '_'

/-- Tokenize a pattern: a `:` followed by a maximal nonempty run of word
characters is a parameter (the `:(\w+)` replacement is greedy); every
other character is a literal. -/
def compileToks : List Char → List PathTok
  | [] => []
  | c :: rest =>
    if c = ':' then
      let run := rest.takeWhile isWordChar
      if run.isEmpty then .lit ':' :: compileToks rest
      else .param (String.mk run) :: compileToks (rest.drop run.length)
    else .lit c :: compileToks rest
termination_by l => l.length
decreasing_by
  all_goals simp only [List.length_drop, List.length_cons]
  all_goals omega

/-- Compiled pattern: the token list standing for the anchored regex, and
`paramNames` in group order. -/
structure CompiledPattern where
  toks : List PathTok
  paramNames : List String
deriving Repr, DecidableEq

/-- `Router.compilePattern(pattern)` (lib/router/index.ts lines 135-153). -/
def compilePattern (pattern : String) : CompiledPattern :=
  let toks := compileToks pattern.data
  ⟨toks, toks.filterMap (fun t => match t with | .param n => some n | .lit _ => none)⟩

/-- The candidate captures for one `([^/]+)` group against the remaining
input, longest first: the regex engine tries the greedy maximal run of
non-`/` characters and backtracks one character at a time, never matching
the empty string. -/
def paramSplits (cs : List Char) : List (List Char × List Char) :=
  let m := (cs.takeWhile (fun c => c ≠ '/')).length
  (List.range m).map (fun j => (cs.take (m - j), cs.drop (m - j)))

/-- Anchored match of the token list against the whole input, returning
the captured group values in order. Backtracking regex semantics: a
parameter group tries its candidate captures longest-first and the first
capture under which the rest of the pattern matches the rest of the input
wins. -/
def matchToks : List PathTok → List Char → Option (List String)
  | [], [] => some []
  | [], _ :: _ => none
  | .lit _ :: _, [] => none
  | .lit c :: ts, x :: xs => if x = c then matchToks ts xs else none
  | .param _ :: ts, cs =>
    (paramSplits cs).findSome? (fun pr =>
      (matchToks ts pr.2).map (fun vs => String.mk pr.1 :: vs))
termination_by ts _ => ts.length
decreasing_by all_goals simp

/-! ### Routes and the Router -/

/-- `HandlerModule` default export (lib/router/types.ts): a function, an
object with a `handler` field and optional `middleware` list (absent
modeled as `[]`), or anything else (`invalidExport`: not a function and
not an object with a `handler` property). -/
inductive ModuleDefault where
| func (h : RouteHandler)
| objWithHandler (handler : RouteHandler) (middleware : List Mw)
| invalidExport

/-- `RouteHandler | HandlerImport`: a direct function, or a dynamic import
whose awaited module has the given default export. -/
inductive HandlerOrImport where
| direct (h : RouteHandler)
| dynImport (m : ModuleDefault)

/-- `RouteDefinition` (lib/router/types.ts): the `regex`/`paramNames`
fields are the compiled pattern. -/
structure RouteDefinition where
  method : HttpMethod
  pattern : String
  handler : HandlerOrImport
  middleware : List Mw
  compiled : CompiledPattern

/-- The `Router` state: registered routes in registration order, global
middleware, and the static-file collaborator (`serveStaticFile` over the
configured directory, returning `none` when it serves nothing). -/
structure Router where
  routes : List RouteDefinition
  globalMiddleware : List Mw
  staticFiles : Option (String → Option HttpResponse)

/-- `new Router()`. -/
def Router.new : Router := ⟨[], [], none⟩

/-- `Router.use(middleware)`: push onto the global middleware list. -/
def Router.use (r : Router) (m : Mw) : Router :=
  { r with globalMiddleware := r.globalMiddleware ++ [m] }

/-- `Router.register(method, pattern, handler, middleware)`
(lib/router/index.ts lines 107-125): compile the pattern and push the
route, preserving registration order. -/
def Router.register (r : Router) (method : HttpMethod) (pattern : String)
    (handler : HandlerOrImport) (middleware : List Mw := []) : Router :=
  { r with routes :=
      r.routes ++ [⟨method, pattern, handler, middleware, compilePattern pattern⟩] }

/-- `Router.get(pattern, handler, middleware)`. -/
def Router.get (r : Router) (pattern : String) (handler : HandlerOrImport)
    (middleware : List Mw := []) : Router :=
  r.register .GET pattern handler middleware

/-- `Router.post(pattern, handler, middleware)`. -/
def Router.post (r : Router) (pattern : String) (handler : HandlerOrImport)
    (middleware : List Mw := []) : Router :=
  r.register .POST pattern handler middleware

/-- `Router.resolveHandler(handlerOrImport)` (lib/router/index.ts lines
196-220): a direct function is returned as-is; a dynamic import is
awaited and its default export inspected - a function is returned, an
object with a `handler` property yields that `handler` (note: the
own `middleware` list of the module is not read here), and anything else
throws a configuration error. -/
def Router.resolveHandler : HandlerOrImport → Except JsError RouteHandler
  | .direct h => .ok h
  | .dynImport (.func h) => .ok h
  | .dynImport (.objWithHandler h _) => .ok h
  | .dynImport .invalidExport =>
    .error (.plain "Handler module must export a function or object with handler property")

/-- `RouteMatch` (lib/router/types.ts). -/
structure RouteMatch where
  handler : RouteHandler
  params : List (String × String)
  middleware : List Mw

/-- `Router.match(method, pathname)` (lib/router/index.ts lines 158-191;
`match` is a Lean keyword, hence `matchRoutes`): scan the routes in
registration order; skip on method mismatch or regex mismatch; on the
first route whose method and pattern both match, pair the parameter names
with the captured groups, resolve the handler (which may throw a
configuration error, propagated) and return the match; `none` when no
route matches. -/
def matchRoutes : List RouteDefinition → HttpMethod → String →
    Except JsError (Option RouteMatch)
  | [], _, _ => .ok none
  | route :: rest, method, pathname =>
    if route.method = method then
      match matchToks route.compiled.toks pathname.data with
      | none => matchRoutes rest method pathname
      | some captures =>
        match Router.resolveHandler route.handler with
        | .error e => .error e
        | .ok h =>
          .ok (some ⟨h, route.compiled.paramNames.zip captures, route.middleware⟩)
    else
      matchRoutes rest method pathname

/-- The body of the try block of `Router.handle(request)` (lib/router/
index.ts lines 225-280) after the static-file check: everything runs
inside the async-local storage binding (`runWithContext` is transparent to
the computed value). Match a route; with no match, run the global
middleware chain over the synthetic 404 handler; with a match, set
`ctx.params` and run global plus route middleware over the matched
handler. -/
def Router.handleMatch (r : Router) (request : HttpRequest) (ctx : RequestContext) :
    Except JsError (HttpResponse × RequestContext) :=
  match matchRoutes r.routes request.method request.pathname with
  | .error e => .error e
  | .ok none =>
    let notFoundHandler : RouteHandler := fun c =>
      .ok (response.notFound
        ("Route not found: " ++ request.method.name ++ " " ++ request.pathname), c)
    executeMiddlewareChain r.globalMiddleware notFoundHandler ctx
  | .ok (some m) =>
    let ctx2 := { ctx with params := m.params }
    executeMiddlewareChain (r.globalMiddleware ++ m.middleware) m.handler ctx2

/-- The entry point itself: try the static-file collaborator for GET and
HEAD, then delegate to `Router.handleMatch`; the catch block converts any
thrown error into `error(err.message, {status: 500})`. -/
def Router.handle (r : Router) (request : HttpRequest) : HttpResponse :=
  let ctx : RequestContext :=
    { request := request, params := [], query := request.query, bag := [] }
  let tryBlock : Except JsError (HttpResponse × RequestContext) :=
    match r.staticFiles, request.method == .GET || request.method == .HEAD with
    | some serve, true =>
      match serve request.pathname with
      | some staticResponse => .ok (staticResponse, ctx)
      | none => Router.handleMatch r request ctx
    | _, _ => Router.handleMatch r request ctx
  match tryBlock with
  | .ok (res, _) => res
  | .error err => response.error err.message 500

/-! ### RouteGroup, lib/router/index.ts lines 316-381 -/

/-- `RouteGroup`: the wrapped router, the path prefix, the
constructor-supplied middleware, and the middleware added through `use`.
The source field named like the path-prefix keyword is `prefixPath` here. -/
structure RouteGroup where
  router : Router
  prefixPath : String
  middleware : List Mw
  groupMiddleware : List Mw

/-- `RouteGroup.use(middleware)`: push onto the group middleware. -/
def RouteGroup.use (g : RouteGroup) (m : Mw) : RouteGroup :=
  { g with groupMiddleware := g.groupMiddleware ++ [m] }

/-- `RouteGroup.route(method, pattern, handler, additionalMiddleware)`
(lines 348-360): registers `prefix + pattern` on the underlying router
with middleware `[...this.middleware, ...this.groupMiddleware,
...additionalMiddleware]`. -/
def RouteGroup.route (g : RouteGroup) (method : HttpMethod) (pattern : String)
    (handler : HandlerOrImport) (additionalMiddleware : List Mw := []) : RouteGroup :=
  let r2 := g.router.register method (g.prefixPath ++ pattern) handler
    (g.middleware ++ g.groupMiddleware ++ additionalMiddleware)
  { g with router := r2 }

/-- `RouteGroup.get`. -/
def RouteGroup.get (g : RouteGroup) (pattern : String) (handler : HandlerOrImport)
    (middleware : List Mw := []) : RouteGroup :=
  g.route .GET pattern handler middleware

/-- `Router.group(prefix, callback, middleware)`: runs the callback on a
fresh group and keeps the routes it registered. -/
def Router.group (r : Router) (prefixPath : String)
    (callback : RouteGroup → RouteGroup) (middleware : List Mw := []) : Router :=
  (callback ⟨r, prefixPath, middleware, []⟩).router

/-! ### Executor laws -/

/-- Binding a pair result into `ok` is the identity on `Except`. -/
theorem except_bind_pair (x : Except JsError (HttpResponse × RequestContext)) :
    (do
      let (r, c) ← x
      (.ok (r, c) : Except JsError (HttpResponse × RequestContext))) = x := by
  cases x with
  | error e => rfl
  | ok p => rfl

/-- A middleware only observes its `next` continuation pointwise. -/
theorem Mw.denote_congr (m : Mw) (ctx : RequestContext)
    (n1 n2 : RequestContext → Except JsError (HttpResponse × RequestContext))
    (h : ∀ c, n1 c = n2 c) : m.denote ctx n1 = m.denote ctx n2 := by
  induction m generalizing ctx with
  | halt r => rfl
  | throwErr e => rfl
  | act f k ih => exact ih (f ctx)
  | callNext post => simp only [Mw.denote, h ctx]

/-- Shifting the cursor past a prepended middleware. -/
theorem chainNext_cons_shift (m : Mw) (mws : List Mw) (handler : RouteHandler) :
    ∀ (k i : Nat) (ctx : RequestContext), mws.length - i ≤ k →
      chainNext (m :: mws) handler (i + 1) ctx = chainNext mws handler i ctx := by
  intro k
  induction k with
  | zero =>
    intro i ctx hk
    have hge : mws.length ≤ i := by omega
    rw [chainNext, chainNext]
    rw [dif_neg (by simp only [List.length_cons]; omega), dif_neg (by omega)]
  | succ k ih =>
    intro i ctx hk
    by_cases hi : i < mws.length
    · rw [chainNext, chainNext]
      rw [dif_pos (by simp only [List.length_cons]; omega), dif_pos hi]
      have hget : (m :: mws).get ⟨i + 1, by simp only [List.length_cons]; omega⟩
          = mws.get ⟨i, hi⟩ := rfl
      rw [hget]
      exact Mw.denote_congr _ _ _ _ (fun c => ih (i + 1) c (by omega))
    · rw [chainNext, chainNext]
      rw [dif_neg (by simp only [List.length_cons]; omega), dif_neg hi]

/-- The empty chain calls the handler. -/
theorem executeMiddlewareChain_nil (handler : RouteHandler) (ctx : RequestContext) :
    executeMiddlewareChain [] handler ctx = handler ctx := by
  rw [executeMiddlewareChain, chainNext]
  simp

/-- Unfolding one middleware of the chain: the head runs with the rest of
the chain as its `next`. -/
theorem executeMiddlewareChain_cons (m : Mw) (mws : List Mw)
    (handler : RouteHandler) (ctx : RequestContext) :
    executeMiddlewareChain (m :: mws) handler ctx
      = m.denote ctx (fun c => executeMiddlewareChain mws handler c) := by
  rw [executeMiddlewareChain, chainNext]
  rw [dif_pos (by simp)]
  exact Mw.denote_congr _ _ _ _
    (fun c => chainNext_cons_shift m mws handler mws.length 0 c (by omega))

/-- An observing pass-through middleware: records its tag as a context
extension field, then returns `await next()` unchanged. -/
def tagMw (t : String) : Mw :=
  .act (fun c => { c with bag := c.bag ++ [(t, "ran")] })
    (.callNext (fun c r => .ok (r, c)))

/-- A handler that reports the context extension fields accumulated by the
middleware that ran before it. -/
def observeHandler : RouteHandler := fun c =>
  .ok ({ status := 200, headers := [],
         body := some (Json.arr (c.bag.map (fun q => Json.str q.1))) }, c)

/-- A chain of observing pass-through middleware runs all of them, in
list order, and then the handler. -/
theorem executeMiddlewareChain_tags (tags : List String) (handler : RouteHandler) :
    ∀ ctx : RequestContext,
      executeMiddlewareChain (tags.map tagMw) handler ctx
        = handler { ctx with bag := ctx.bag ++ tags.map (fun t => (t, "ran")) } := by
  induction tags with
  | nil =>
    intro ctx
    simp [executeMiddlewareChain_nil]
  | cons t ts ih =>
    intro ctx
    rw [List.map_cons, executeMiddlewareChain_cons]
    show Mw.denote (.act _ (.callNext _)) ctx _ = _
    rw [Mw.denote, Mw.denote]
    rw [show (do
        let (r, c) ← executeMiddlewareChain (ts.map tagMw) handler
          { ctx with bag := ctx.bag ++ [(t, "ran")] }
        (.ok (r, c) : Except JsError (HttpResponse × RequestContext)))
      = executeMiddlewareChain (ts.map tagMw) handler
          { ctx with bag := ctx.bag ++ [(t, "ran")] } from except_bind_pair _]
    rw [ih]
    simp

/-- C8: a middleware that returns a response without calling `next` stops
the chain: everything registered after it (middleware and terminal
handler) is irrelevant to the outcome, and when it is reached it yields
its own response with the context as it stood. lib/router/index.ts lines
285-311. -/
theorem middleware_short_circuit_stops_chain
    (pre : List Mw) (resp : HttpResponse) (rest rest2 : List Mw)
    (handler handler2 : RouteHandler) (ctx : RequestContext) :
    (executeMiddlewareChain (pre ++ Mw.halt resp :: rest) handler ctx
        = executeMiddlewareChain (pre ++ Mw.halt resp :: rest2) handler2 ctx) ∧
      executeMiddlewareChain (Mw.halt resp :: rest) handler ctx = .ok (resp, ctx) := by
  constructor
  · induction pre generalizing ctx with
    | nil =>
      simp only [List.nil_append, executeMiddlewareChain_cons]
      rfl
    | cons m ms ih =>
      simp only [List.cons_append, executeMiddlewareChain_cons]
      exact Mw.denote_congr _ _ _ _ (fun c => ih c)
  · rw [executeMiddlewareChain_cons]
    rfl

/-- C9: a request matching no registered route still runs the full global
middleware chain (every observing middleware records itself, in order) and
terminates in the synthetic 404: status 404, JSON body with
`error.code = "NOT_FOUND"` and a message naming the request method and
path. lib/router/index.ts lines 252-261 and `notFound` in
lib/router/response.ts. -/
theorem unmatched_route_runs_global_middleware_and_404
    (routes : List RouteDefinition) (tags : List String) (request : HttpRequest)
    (hnomatch : matchRoutes routes request.method request.pathname = .ok none) :
    (Router.handle ⟨routes, tags.map tagMw, none⟩ request
        = response.notFound
            ("Route not found: " ++ request.method.name ++ " " ++ request.pathname)) ∧
      (executeMiddlewareChain (tags.map tagMw)
          (fun c => .ok (response.notFound
            ("Route not found: " ++ request.method.name ++ " " ++ request.pathname), c))
          ⟨request, [], request.query, []⟩
        = .ok (response.notFound
            ("Route not found: " ++ request.method.name ++ " " ++ request.pathname),
            ⟨request, [], request.query, tags.map (fun t => (t, "ran"))⟩)) ∧
      (response.notFound
          ("Route not found: " ++ request.method.name ++ " " ++ request.pathname)
        = { status := 404,
            headers := [("Content-Type", "application/json")],
            body := some (Json.obj [("error", Json.obj
              [("message", Json.str
                  ("Route not found: " ++ request.method.name ++ " " ++ request.pathname)),
               ("code", Json.str "NOT_FOUND")])]) }) := by
  refine ⟨?_, ?_, rfl⟩
  · rw [Router.handle]
    simp only [Router.handleMatch, hnomatch]
    rw [executeMiddlewareChain_tags]
  · rw [executeMiddlewareChain_tags]
    simp

/-- Witness for C9: no routes at all, two observing global middleware, a
GET of an unregistered path. -/
theorem unmatched_route_runs_global_middleware_and_404_witness :
    (Router.handle ⟨[], ["log", "cors"].map tagMw, none⟩ ⟨.GET, "/nope", []⟩
        = response.notFound "Route not found: GET /nope") ∧
      (executeMiddlewareChain (["log", "cors"].map tagMw)
          (fun c => .ok (response.notFound "Route not found: GET /nope", c))
          ⟨⟨.GET, "/nope", []⟩, [], [], []⟩
        = .ok (response.notFound "Route not found: GET /nope",
            ⟨⟨.GET, "/nope", []⟩, [], [], [("log", "ran"), ("cors", "ran")]⟩)) := by
  have h := unmatched_route_runs_global_middleware_and_404
    [] ["log", "cors"] ⟨.GET, "/nope", []⟩ rfl
  exact ⟨h.1, h.2.1⟩

/-- Repeated `Router.use` appends the middleware in call order. -/
theorem foldl_router_use (tags : List String) :
    ∀ r : Router,
      tags.foldl (fun rr t => rr.use (tagMw t)) r
        = { r with globalMiddleware := r.globalMiddleware ++ tags.map tagMw } := by
  induction tags with
  | nil => intro r; simp
  | cons t ts ih =>
    intro r
    rw [List.foldl_cons, ih]
    simp [Router.use]

/-- Repeated `RouteGroup.use` appends the group middleware in call order. -/
theorem foldl_group_use (tags : List String) :
    ∀ g : RouteGroup,
      tags.foldl (fun gg t => gg.use (tagMw t)) g
        = { g with groupMiddleware := g.groupMiddleware ++ tags.map tagMw } := by
  induction tags with
  | nil => intro g; simp
  | cons t ts ih =>
    intro g
    rw [List.foldl_cons, ih]
    simp [RouteGroup.use]

/-- C10: for a route registered through a `RouteGroup`, the middleware
executed for a matched request runs in the order global middleware, then
group middleware supplied at group construction, then middleware added via
`use` on the group, then the per-route middleware, with the route-specific
middleware innermost, adjacent to the handler: the handler observes the
recorded tags `gtags ++ ctags ++ utags ++ rtags` in exactly that order.
RouteGroup.route at lib/router/index.ts lines 348-360 and the chain
assembly in Router.handle at lines 266-270. -/
theorem route_group_middleware_order
    (gtags ctags utags rtags : List String)
    (pfx pat : String) (request : HttpRequest) (captures : List String)
    (hmethod : request.method = .GET)
    (hmatch : matchToks (compilePattern (pfx ++ pat)).toks request.pathname.data
        = some captures) :
    Router.handle
        ((gtags.foldl (fun rr t => rr.use (tagMw t)) Router.new).group pfx
          (fun g =>
            (utags.foldl (fun gg t => gg.use (tagMw t)) g).get pat
              (.direct observeHandler) (rtags.map tagMw))
          (ctags.map tagMw))
        request
      = { status := 200, headers := [],
          body := some (Json.arr
            ((gtags ++ ctags ++ utags ++ rtags).map Json.str)) } := by
  rw [foldl_router_use]
  rw [Router.handle]
  simp only [Router.group, RouteGroup.get, RouteGroup.route, foldl_group_use]
  simp only [Router.register, Router.new, Router.handleMatch]
  simp only [List.nil_append, matchRoutes, hmethod, if_true]
  simp only [hmatch, Router.resolveHandler]
  simp only [← List.map_append]
  rw [executeMiddlewareChain_tags]
  simp only [observeHandler]
  simp [List.append_assoc,
    show ((fun q : String × String => Json.str q.1) ∘ fun t : String => (t, "ran"))
      = fun t : String => Json.str t from rfl]

/-- Witness for C10: one tag per tier; the handler observes
global, constructor, use, route tags in that order. -/
theorem route_group_middleware_order_witness :
    Router.handle
        (((["g1"] : List String).foldl (fun rr t => rr.use (tagMw t)) Router.new).group
          "/admin"
          (fun g =>
            ((["u1"] : List String).foldl (fun gg t => gg.use (tagMw t)) g).get "/dash"
              (.direct observeHandler) (["r1"].map tagMw))
          (["c1"].map tagMw))
        ⟨.GET, "/admin/dash", []⟩
      = { status := 200, headers := [],
          body := some (Json.arr
            ((["g1", "c1", "u1", "r1"] : List String).map Json.str)) } := by
  have h := route_group_middleware_order ["g1"] ["c1"] ["u1"] ["r1"]
    "/admin" "/dash" ⟨.GET, "/admin/dash", []⟩ [] rfl
    (by simp [compilePattern, compileToks, matchToks, paramSplits, isWordChar,
      List.takeWhile])
  simpa using h

/-- C7: route matching is order-sensitive. If the routes registered before
`route` do not match the request (method mismatch or pattern mismatch)
and `route` matches it, then the scan settles on `route`: every route
registered after it is irrelevant, and the result is exactly what `route`
alone would produce. In particular, of two routes that both match, the
earlier-registered one handles the request. lib/router/index.ts lines
158-191 (scan in registration order, first match returns) and 107-125
(registration order preserved). -/
theorem match_first_registered_route_wins
    (rs1 : List RouteDefinition) (route : RouteDefinition) (rs2 : List RouteDefinition)
    (method : HttpMethod) (pathname : String)
    (hnone : ∀ r ∈ rs1, r.method = method → matchToks r.compiled.toks pathname.data = none)
    (hm : route.method = method)
    (hp : (matchToks route.compiled.toks pathname.data).isSome = true) :
    matchRoutes (rs1 ++ route :: rs2) method pathname
      = matchRoutes [route] method pathname := by
  induction rs1 with
  | nil =>
    obtain ⟨caps, hcaps⟩ := Option.isSome_iff_exists.mp hp
    simp [matchRoutes, hm, hcaps]
  | cons r rs1 ih =>
    have ih2 := ih (fun q hq hqm => hnone q (List.mem_cons_of_mem r hq) hqm)
    by_cases hr : r.method = method
    · have hnr := hnone r (List.mem_cons_self r _) hr
      simp only [List.cons_append, matchRoutes, hr, if_true, hnr]
      exact ih2
    · simp only [List.cons_append, matchRoutes, if_neg hr]
      exact ih2

/-- Witness for C7: the patterns `/posts/:id` and `/posts/42` both match a
GET of `/posts/42`; with the parameterized route registered first, the
literal route registered after it does not affect the result. -/
theorem match_first_registered_route_wins_witness :
    matchRoutes
        [⟨.GET, "/posts/:id", .direct observeHandler, [], compilePattern "/posts/:id"⟩,
         ⟨.GET, "/posts/42", .direct observeHandler, [], compilePattern "/posts/42"⟩]
        .GET "/posts/42"
      = matchRoutes
          [⟨.GET, "/posts/:id", .direct observeHandler, [], compilePattern "/posts/:id"⟩]
          .GET "/posts/42" :=
  match_first_registered_route_wins []
    ⟨.GET, "/posts/:id", .direct observeHandler, [], compilePattern "/posts/:id"⟩
    [⟨.GET, "/posts/42", .direct observeHandler, [], compilePattern "/posts/42"⟩]
    .GET "/posts/42"
    (by intro r hr; simp at hr)
    rfl
    (by simp [compilePattern, compileToks, matchToks, paramSplits, isWordChar,
      List.takeWhile, List.range, List.range.loop])

/-! ### Soundness of the compiled-pattern matcher -/

/-- Reassembly of an input from the pattern tokens and the captured
values: literals contribute themselves, each parameter contributes the
next capture. -/
def reassemble : List PathTok → List String → List Char
  | [], _ => []
  | .lit c :: ts, vs => c :: reassemble ts vs
  | .param _ :: ts, [] => reassemble ts []
  | .param _ :: ts, v :: vs => v.data ++ reassemble ts vs

/-- Every candidate capture produced for a `([^/]+)` group is a nonempty
run of non-slash characters, followed by exactly the rest of the input. -/
theorem paramSplits_spec (cs : List Char) (pr : List Char × List Char)
    (hpr : pr ∈ paramSplits cs) :
    pr.1 ++ pr.2 = cs ∧ pr.1 ≠ [] ∧ ∀ c ∈ pr.1, c ≠ '/' := by
  unfold paramSplits at hpr
  simp only [List.mem_map, List.mem_range] at hpr
  obtain ⟨j, hj, hpr⟩ := hpr
  subst hpr
  set m := (cs.takeWhile (fun c => c ≠ '/')).length with hm
  have hmle : m ≤ cs.length := (List.takeWhile_prefix _).length_le
  refine ⟨List.take_append_drop _ _, ?_, ?_⟩
  · have hlen : (cs.take (m - j)).length = m - j := by
      rw [List.length_take]
      omega
    intro hnil
    have hnil2 : cs.take (m - j) = [] := hnil
    rw [hnil2] at hlen
    simp at hlen
    omega
  · intro c hc
    obtain ⟨t, ht⟩ := List.takeWhile_prefix (l := cs) (fun c => c ≠ '/')
    have hks : cs.take (m - j)
        = (cs.takeWhile (fun c => c ≠ '/')).take (m - j) := by
      conv_lhs => rw [← ht]
      rw [List.take_append_eq_append_take]
      have : m - j - (cs.takeWhile (fun c => c ≠ '/')).length = 0 := by omega
      rw [this]
      simp
    rw [hks] at hc
    have := List.mem_takeWhile_imp (List.mem_of_mem_take hc)
    simpa using this

/-- Soundness of the matcher: a successful anchored match consumes the
whole input - the input is exactly the pattern literals with each
parameter replaced by its capture - there is one capture per parameter
group, and every capture is a nonempty run of non-slash characters. -/
theorem matchToks_sound :
    ∀ (ts : List PathTok) (cs : List Char) (vs : List String),
      matchToks ts cs = some vs →
      cs = reassemble ts vs ∧
        vs.length = ts.countP (fun t => match t with | .param _ => true | .lit _ => false) ∧
        ∀ v ∈ vs, v.data ≠ [] ∧ ∀ c ∈ v.data, c ≠ '/' := by
  intro ts
  induction ts with
  | nil =>
    intro cs vs h
    cases cs with
    | nil =>
      simp only [matchToks] at h
      cases h
      simp [reassemble]
    | cons x xs => simp [matchToks] at h
  | cons t ts ih =>
    intro cs vs h
    cases t with
    | lit c =>
      cases cs with
      | nil => simp [matchToks] at h
      | cons x xs =>
        simp only [matchToks] at h
        by_cases hx : x = c
        · rw [if_pos hx] at h
          obtain ⟨h1, h2, h3⟩ := ih xs vs h
          subst hx
          refine ⟨by rw [reassemble, ← h1], ?_, h3⟩
          simpa using h2
        · rw [if_neg hx] at h
          cases h
    | param n =>
      simp only [matchToks] at h
      obtain ⟨pr, hpr, hf⟩ := List.exists_of_findSome?_eq_some h
      obtain ⟨vs2, hvs2, hcons⟩ := Option.map_eq_some'.mp hf
      obtain ⟨hsplit, hne, hslash⟩ := paramSplits_spec cs pr hpr
      obtain ⟨h1, h2, h3⟩ := ih pr.2 vs2 hvs2
      subst hcons
      refine ⟨?_, ?_, ?_⟩
      · show cs = pr.1 ++ reassemble ts vs2
        rw [← hsplit, h1]
      · simp [List.length_cons, List.countP_cons, h2]
      · intro v hv
        rcases List.mem_cons.mp hv with hv | hv
        · subst hv
          exact ⟨by simpa using hne, by simpa using hslash⟩
        · exact h3 v hv

/-- C6: a route registered with pattern `/posts/:id` matches `/posts/42`
with `params.id = "42"`, does not match `/posts/42/comments`, and does not
match the trailing-slash variant `/posts/42/` (trailing slashes are
significant, not normalized). In general, for this compiled pattern, any
successful match captures exactly one nonempty run of non-slash characters
and the compiled pattern consumes the whole path (anchored at both ends):
the path is literally `/posts/` followed by the capture.
Router.compilePattern at lib/router/index.ts lines 135-153 and the scan at
lines 158-191. -/
theorem pattern_posts_id_matching :
    ((matchRoutes (Router.new.get "/posts/:id" (.direct observeHandler)).routes
          .GET "/posts/42").map (Option.map (fun m => m.params)))
        = .ok (some [("id", "42")]) ∧
      matchRoutes (Router.new.get "/posts/:id" (.direct observeHandler)).routes
          .GET "/posts/42/comments" = .ok none ∧
      matchRoutes (Router.new.get "/posts/:id" (.direct observeHandler)).routes
          .GET "/posts/42/" = .ok none ∧
      (∀ (s : String) (vs : List String),
        matchToks (compilePattern "/posts/:id").toks s.data = some vs →
        ∃ v : String, vs = [v] ∧ v.data ≠ [] ∧ (∀ c ∈ v.data, c ≠ '/') ∧
          s.data = "/posts/".data ++ v.data) := by
  refine ⟨?_, ?_, ?_, ?_⟩
  · simp [Router.new, Router.get, Router.register, matchRoutes, Router.resolveHandler,
      compilePattern, compileToks, matchToks, paramSplits, isWordChar,
      List.takeWhile, List.range, List.range.loop, Except.map, Option.map]
  · simp [Router.new, Router.get, Router.register, matchRoutes, Router.resolveHandler,
      compilePattern, compileToks, matchToks, paramSplits, isWordChar,
      List.takeWhile, List.range, List.range.loop]
  · simp [Router.new, Router.get, Router.register, matchRoutes, Router.resolveHandler,
      compilePattern, compileToks, matchToks, paramSplits, isWordChar,
      List.takeWhile, List.range, List.range.loop]
  · intro s vs h
    have htoks : (compilePattern "/posts/:id").toks
        = [.lit '/', .lit 'p', .lit 'o', .lit 's', .lit 't', .lit 's', .lit '/',
           .param "id"] := by
      simp [compilePattern, compileToks, isWordChar, List.takeWhile]
    rw [htoks] at h
    obtain ⟨h1, h2, h3⟩ := matchToks_sound _ s.data vs h
    simp only [List.countP_cons, List.countP_nil] at h2
    obtain ⟨v, hv⟩ := List.length_eq_one.mp (by simpa using h2)
    subst hv
    refine ⟨v, rfl, (h3 v (by simp)).1, (h3 v (by simp)).2, ?_⟩
    rw [h1]
    simp [reassemble]

/-- Witness for C6: the general clause applied at `/posts/42` with capture
`42` recovers the anchored decomposition of the path. -/
theorem pattern_posts_id_matching_witness :
    "/posts/42".data = "/posts/".data ++ "42".data := by
  have h := pattern_posts_id_matching.2.2.2 "/posts/42" ["42"]
    (by simp [compilePattern, compileToks, matchToks, paramSplits, isWordChar,
      List.takeWhile, List.range, List.range.loop])
  obtain ⟨v, hv, _, _, heq⟩ := h
  have hv2 : v = "42" := by
    have := hv.symm
    simpa using this
  subst hv2
  exact heq

/-- C5 counterexample: the middleware carried by a lazily imported handler
module is NOT merged into the executed chain. A route whose lazy module
resolves to `{handler, middleware: [observing tag]}` produces a response
showing that no middleware ran (empty recorded trace), while the same
middleware attached as route middleware does run; the two responses
differ. Router.resolveHandler (lib/router/index.ts lines 196-220) returns
only `exported.handler` and Router.match (lines 158-191) returns only
`route.middleware`. -/
theorem module_middleware_not_merged_counterexample :
    (Router.handle
        (Router.new.get "/x"
          (.dynImport (.objWithHandler observeHandler [tagMw "modmw"])))
        ⟨.GET, "/x", []⟩
      = { status := 200, headers := [], body := some (Json.arr []) }) ∧
      (Router.handle
          (Router.new.get "/x" (.direct observeHandler) [tagMw "modmw"])
          ⟨.GET, "/x", []⟩
        = { status := 200, headers := [],
            body := some (Json.arr [Json.str "modmw"]) }) ∧
      ({ status := 200, headers := [], body := some (Json.arr []) } : HttpResponse)
        ≠ { status := 200, headers := [], body := some (Json.arr [Json.str "modmw"]) } := by
  refine ⟨?_, ?_, ?_⟩
  · simp [Router.handle, Router.handleMatch, Router.new, Router.get, Router.register,
      matchRoutes, Router.resolveHandler, compilePattern, compileToks, matchToks,
      paramSplits, isWordChar, List.takeWhile, List.range, List.range.loop,
      executeMiddlewareChain_cons, executeMiddlewareChain_nil, tagMw, Mw.denote,
      observeHandler]
  · simp [Router.handle, Router.handleMatch, Router.new, Router.get, Router.register,
      matchRoutes, Router.resolveHandler, compilePattern, compileToks, matchToks,
      paramSplits, isWordChar, List.takeWhile, List.range, List.range.loop,
      executeMiddlewareChain_cons, executeMiddlewareChain_nil, tagMw, Mw.denote,
      observeHandler]
    rfl
  · simp

/-- C5 amended: a lazy handler reference resolved at request-match time
must yield a direct callable or an object exposing a `handler` field;
anything else is a configuration error (thrown `Error`). The resolved
own middleware list of the resolved object is ignored: the matched request executes
only the route-registered middleware (`matchRoutes` returns
`route.middleware` unchanged, whatever shape the handler import has). -/
theorem lazy_handler_resolution_behavior :
    (∀ h : RouteHandler, Router.resolveHandler (.direct h) = .ok h) ∧
      (∀ h : RouteHandler, Router.resolveHandler (.dynImport (.func h)) = .ok h) ∧
      (∀ (h : RouteHandler) (mws : List Mw),
        Router.resolveHandler (.dynImport (.objWithHandler h mws)) = .ok h) ∧
      (Router.resolveHandler (.dynImport .invalidExport)
        = .error (.plain
            "Handler module must export a function or object with handler property")) ∧
      (∀ (route : RouteDefinition) (method : HttpMethod) (pathname : String)
          (caps : List String) (h : RouteHandler),
        route.method = method →
        matchToks route.compiled.toks pathname.data = some caps →
        Router.resolveHandler route.handler = .ok h →
        matchRoutes [route] method pathname
          = .ok (some ⟨h, route.compiled.paramNames.zip caps, route.middleware⟩)) := by
  refine ⟨fun h => rfl, fun h => rfl, fun h mws => rfl, rfl, ?_⟩
  intro route method pathname caps h hm hmatch hres
  simp [matchRoutes, hm, hmatch, hres]

/-- Witness for the amended C5: a concrete route whose lazy module carries
an observing middleware resolves to its handler with the empty
route-middleware list - the module middleware is not in the match. -/
theorem lazy_handler_resolution_behavior_witness :
    matchRoutes
        [⟨.GET, "/x", .dynImport (.objWithHandler observeHandler [tagMw "modmw"]), [],
          compilePattern "/x"⟩]
        .GET "/x"
      = .ok (some ⟨observeHandler, [], []⟩) := by
  have h := lazy_handler_resolution_behavior.2.2.2.2
    ⟨.GET, "/x", .dynImport (.objWithHandler observeHandler [tagMw "modmw"]), [],
      compilePattern "/x"⟩
    .GET "/x" [] observeHandler rfl
    (by simp [compilePattern, compileToks, matchToks, isWordChar, List.takeWhile])
    rfl
  simpa [compilePattern, compileToks, isWordChar, List.takeWhile] using h

/-- C1 evaluation at the failing input: a matched handler that throws a
`RedirectError` (or any structured `HttpError`) reaches only the catch
block of Router.handle (lib/router/index.ts lines 273-280), which returns
`error(err.message, {status: 500})`: a 500 JSON response, not the
conversion the error classes document. `errorToResponse`
(lib/router/errors.ts lines 175-237) implements that documented
conversion - 302 with the Location header preserved and an empty body for
the redirect, the original 404 with its machine-readable code for the
client fault - but Router.handle never calls it (it is wired only into
the error callback of the Bun adapter, which never fires because handle
catches everything). The two responses differ. -/
theorem router_handle_swallows_structured_errors_to_500 :
    (Router.handle
        (Router.new.get "/old" (.direct (fun _ => .error (RedirectError "/new"))))
        ⟨.GET, "/old", []⟩
      = response.error "Redirect" 500) ∧
      (errorToResponse (RedirectError "/new")
        = { status := 302, headers := [("Location", "/new")], body := none }) ∧
      (Router.handle
          (Router.new.get "/missing"
            (.direct (fun _ => .error (NotFoundError "Resource not found"))))
          ⟨.GET, "/missing", []⟩
        = response.error "Resource not found" 500) ∧
      (errorToResponse (NotFoundError "Resource not found")
        = { status := 404,
            headers := [("Content-Type", "application/json")],
            body := some (Json.obj [("error", Json.obj
              [("message", Json.str "Resource not found"),
               ("code", Json.str "NOT_FOUND")])]) }) ∧
      response.error "Redirect" 500
        ≠ { status := 302, headers := [("Location", "/new")], body := none } := by
  refine ⟨?_, rfl, ?_, rfl, ?_⟩
  · simp [Router.handle, Router.handleMatch, Router.new, Router.get, Router.register,
      matchRoutes, Router.resolveHandler, compilePattern, compileToks, matchToks,
      paramSplits, isWordChar, List.takeWhile, executeMiddlewareChain_nil,
      RedirectError, JsError.message]
  · simp [Router.handle, Router.handleMatch, Router.new, Router.get, Router.register,
      matchRoutes, Router.resolveHandler, compilePattern, compileToks, matchToks,
      paramSplits, isWordChar, List.takeWhile, executeMiddlewareChain_nil,
      NotFoundError, JsError.message]
  · intro hcontra
    have := congrArg HttpResponse.status hcontra
    simp [response.error, response.json] at this

end Conduit
